import Mathlib

/-!
# Verification of the BeatLearning IBF converter and demon pipeline

A shallow embedding of the two Python sources of this repository:

* `convert_ibf_to_godot.py` — the `IBFConverter` class: lane/style tables,
  the row scan of `convert_to_godot`, the hold-duration look-ahead
  `_calculate_hold_duration`, and the procedural `_generate_pattern`.
* `rhythm-game/src/scripts/generate_mymiff_demons.py` — the placeholder
  beatmap generator `create_placeholder_beatmap` and the fallback control
  flow of `generate_beatmap_with_beatlearning`.

Python numbers are modelled exactly: machine floats become `Rat`
(arithmetic is taken exact), `int(...)` becomes truncation toward zero,
and Python's `round` becomes round-half-to-even.
-/

namespace BeatLearning

/-- Python `int(x)` on a number: truncation toward zero. -/
def pyInt (q : Rat) : Int := if 0 ≤ q then ⌊q⌋ else ⌈q⌉

/-- Python `round(x)`: round to the nearest integer, ties to even. -/
def roundHalfEven (q : Rat) : Int :=
  if q - ⌊q⌋ = 1/2 then (if 2 ∣ ⌊q⌋ then ⌊q⌋ else ⌊q⌋ + 1) else round q

/-- Python `round(x, 3)`: round to three decimal places. -/
def round3 (q : Rat) : Rat := (roundHalfEven (q * 1000) : Rat) / 1000

/-! ## Data model of `convert_ibf_to_godot.py` -/

/-- One row of the IBF data table: the `TIME` column plus the per-lane
columns, as a name/value association list (a pandas row). -/
structure Row where
  time : Int
  cols : List (String × Int)
deriving DecidableEq

/-- Python `track in row` / `row[track]`: look a column up by name. -/
def Row.getCol (r : Row) (name : String) : Option Int :=
  r.cols.lookup name

/-- The `IBFConverter.lane_mappings` per-style lane-name tables. -/
def laneMappings (style : String) : Option (List (Nat × List String)) :=
  if style = "guitar-hero" then
    some [(4, ["LEFT", "DOWN", "UP", "RIGHT"]), (2, ["LEFT", "RIGHT"]), (1, ["CENTER"])]
  else if style = "dance" then
    some [(4, ["LEFT", "DOWN", "UP", "RIGHT"]), (2, ["LEFT", "RIGHT"]), (1, ["CENTER"])]
  else if style = "drums" then
    some [(4, ["KICK", "SNARE", "HI-HAT", "CRASH"]), (2, ["KICK", "SNARE"]), (1, ["KICK"])]
  else none

/-- Embeds `IBFConverter._get_default_tracks`: the style's table (falling back to
the guitar-hero table for unknown styles), looked up at the lane count
(falling back to the default 4-lane list truncated to the lane count). -/
def getDefaultTracks (style : String) (lanes : Nat) : List String :=
  let styleMapping := (laneMappings style).getD ((laneMappings "guitar-hero").getD [])
  (styleMapping.lookup lanes).getD (["LEFT", "DOWN", "UP", "RIGHT"].take lanes)

/-- The track name `_calculate_hold_duration` resolves for a lane index:
the default track list when in range, otherwise `"LANE_<i>"`. -/
def laneTrackName (style : String) (lanes : Nat) (lane : Nat) : String :=
  let dts := getDefaultTracks style lanes
  if h : lane < dts.length then dts.get ⟨lane, h⟩ else "LANE_" ++ toString lane

/-- The `for future_row in future_rows` loop of `_calculate_hold_duration`:
return the time delta at the first row whose column `name` holds a value
other than 2; default to 1000 when no such row remains. -/
def holdScan (name : String) (startTime : Int) : List Row → Int
  | [] => 1000
  | r :: rs =>
    match r.getCol name with
    | some v => if v = 2 then holdScan name startTime rs else r.time - startTime
    | none => holdScan name startTime rs

/-- Embeds `IBFConverter._calculate_hold_duration`: filter the rows to those with
`TIME > start_time` (keeping row order) and scan for the first row where
the lane's default-resolved column is no longer 2. -/
def calculateHoldDuration (df : List Row) (style : String) (lanes : Nat)
    (lane : Nat) (startTime : Int) : Int :=
  holdScan (laneTrackName style lanes lane) startTime
    (df.filter fun r => startTime < r.time)

/-- A converted hit object (`{time, lane, type, duration}`). -/
structure HitObject where
  time : Int
  lane : Nat
  type : String
  duration : Int
deriving DecidableEq

/-- The per-row emission of `convert_to_godot`: enumerate the configured
tracks limited to the lane count, and emit a tap for value 1, a hold (with
the looked-ahead duration) for value 2, a special for value 3. -/
def rowObjects (df : List Row) (style : String) (lanes : Nat)
    (tracks : List String) (r : Row) : List HitObject :=
  ((tracks.take lanes).enum).filterMap fun p =>
    match r.getCol p.2 with
    | none => none
    | some v =>
      if v = 1 then some { time := r.time, lane := p.1, type := "tap", duration := 0 }
      else if v = 2 then
        some { time := r.time, lane := p.1, type := "hold",
               duration := calculateHoldDuration df style lanes p.1 r.time }
      else if v = 3 then
        some { time := r.time, lane := p.1, type := "special", duration := 0 }
      else none

/-- All hit objects emitted by the row scan, in emission order
(row order, then lane order within a row). -/
def emittedObjects (df : List Row) (style : String) (lanes : Nat)
    (tracks : List String) : List HitObject :=
  df.flatMap (rowObjects df style lanes tracks)

/-- Python `list.sort(key=lambda x: x["time"])`: a stable sort by time. -/
def sortByTime (l : List HitObject) : List HitObject :=
  l.mergeSort fun a b => decide (a.time ≤ b.time)

/-- The metadata of the loaded IBF input; each field is optional
(`metadata.get(..., default)` in the Python source). -/
structure InputMeta where
  title : Option String
  artist : Option String
  difficulty : Option String
  audio : Option String
  bpm : Option Rat
  duration : Option Rat
  tracks : Option (List String)
  version : Option String
deriving DecidableEq

/-- The output `metadata` object of `convert_to_godot`. -/
structure OutMeta where
  title : String
  artist : String
  difficulty : String
  audio_filename : String
  bpm : Rat
  duration : Rat
  lanes : Nat
  style : String
  beatlearning_version : String
  generated_by : String
deriving DecidableEq

/-- One entry of the output `timing_points` list. -/
structure TimingPoint where
  time : Int
  beat_length : Rat
  meter : Nat
  sample_set : String
  sample_index : Nat
  volume : Nat
  uninherited : Bool
  effects : Nat
deriving DecidableEq

/-- The converter's output JSON document. -/
structure GodotBeatmap where
  metadata : OutMeta
  timing_points : List TimingPoint
  hit_objects : List HitObject
deriving DecidableEq

/-- Embeds `IBFConverter.convert_to_godot`: build the output metadata with its
documented defaults, emit the hit objects row by row, sort them stably by
time, and attach the single timing point. -/
def convertToGodot (style : String) (lanes : Nat) (meta : InputMeta)
    (df : List Row) : GodotBeatmap :=
  let tracks := meta.tracks.getD (getDefaultTracks style lanes)
  { metadata :=
      { title := meta.title.getD "Unknown Song"
        artist := meta.artist.getD "Unknown Artist"
        difficulty := meta.difficulty.getD "Normal"
        audio_filename := meta.audio.getD ""
        bpm := meta.bpm.getD 120
        duration := meta.duration.getD 0
        lanes := lanes
        style := style
        beatlearning_version := meta.version.getD "unknown"
        generated_by := "BeatLearning" }
    timing_points :=
      [ { time := 0
          beat_length := 60000 / meta.bpm.getD 120
          meter := 4
          sample_set := "normal"
          sample_index := 0
          volume := 100
          uninherited := true
          effects := 0 } ]
    hit_objects := sortByTime (emittedObjects df style lanes tracks) }

/-- Embeds `IBFConverter._generate_pattern`: the deterministic procedural
fallback pattern (the source's `duration` parameter defaults to 30). -/
def generatePattern (lanes : Nat) (difficulty bpm duration : Rat) : List HitObject :=
  let beatDuration : Rat := 60000 / bpm
  let noteDensity : Int := 2 + pyInt (difficulty * 3)
  (List.range (pyInt (duration * bpm / 60)).toNat).flatMap fun (beat : Nat) =>
    let beatTime : Rat := (beat : Rat) * beatDuration
    (List.range noteDensity.toNat).filterMap fun (subBeat : Nat) =>
      if subBeat = 0 ∨ (1/2 < difficulty ∧ subBeat % 2 = 0) then
        some { time := pyInt (beatTime + (subBeat : Rat) * beatDuration / (noteDensity : Rat))
               lane := (beat + subBeat) % lanes
               type := "tap"
               duration := 0 }
      else none

/-! ## Data model of `generate_mymiff_demons.py` -/

/-- The fields of one entry of the demon configuration that
`create_placeholder_beatmap` reads. -/
structure DemonConfig where
  id : String
  display_name : String
  capture_difficulty : String
  capture_duration : Rat
  desired_bpm : Rat
  note_density : String
  special_note_frequency : Rat
deriving DecidableEq

/-- The `note_density_map` table together with `.get(..., 1.0)`. -/
def noteDensityValue (s : String) : Rat :=
  if s = "low" then 1/2
  else if s = "medium" then 1
  else if s = "medium_high" then 13/10
  else if s = "high" then 8/5
  else if s = "very_high" then 2
  else 1

/-- A note of the demon-pipeline beatmap (`{time, lane, type}`; the time
is in seconds, rounded to three decimals). -/
structure PNote where
  time : Rat
  lane : Nat
  type : String
deriving DecidableEq

/-- The `metadata` object of the placeholder beatmap. -/
structure PlaceholderMeta where
  demon_id : String
  generated_by : String
  capture_difficulty : String
  note_density : String
deriving DecidableEq

/-- The demon-pipeline output document (distinct schema from the
converter's `GodotBeatmap`). -/
structure PlaceholderBeatmap where
  version : String
  creator : String
  song_name : String
  difficulty : String
  bpm : Rat
  duration : Rat
  lanes : Nat
  notes : List PNote
  metadata : PlaceholderMeta
deriving DecidableEq

/-- The note loop of `create_placeholder_beatmap`: one candidate note per
beat, kept when the beat index is a multiple of the density stride, on
lane `beat % 4`, special every 8th beat when the configured frequency is
positive. -/
def placeholderNotes (cfg : DemonConfig) : List PNote :=
  let noteDensity := noteDensityValue cfg.note_density
  let secondsPerBeat := 60 / cfg.desired_bpm
  let totalBeats := (pyInt (cfg.capture_duration / secondsPerBeat)).toNat
  (List.range totalBeats).filterMap fun (beat : Nat) =>
    let time : Rat := (beat : Rat) * secondsPerBeat
    if beat % (max 1 (pyInt (2 / noteDensity))).toNat = 0 then
      some { time := round3 time
             lane := beat % 4
             type := if 0 < cfg.special_note_frequency ∧ beat % 8 = 0 then "special" else "tap" }
    else none

/-- Embeds `create_placeholder_beatmap`: the document written to the output
path when the pipeline falls back to the placeholder generator. -/
def createPlaceholderBeatmap (cfg : DemonConfig) : PlaceholderBeatmap :=
  { version := "1.0"
    creator := "BeatLearning Placeholder Generator"
    song_name := cfg.display_name ++ " Theme"
    difficulty := cfg.capture_difficulty
    bpm := cfg.desired_bpm
    duration := cfg.capture_duration
    lanes := 4
    notes := placeholderNotes cfg
    metadata :=
      { demon_id := cfg.id
        generated_by := "placeholder"
        capture_difficulty := cfg.capture_difficulty
        note_density := cfg.note_density } }

/-- What the generation attempt in `generate_beatmap_with_beatlearning`
did, abstracting its effectful steps: either the model ran and the
converter subprocess exited 0 (having written its converted document), or
one of the failure branches was taken (an exception anywhere in the `try`
block, a non-zero converter exit, or a missing converter script). -/
inductive GenOutcome
  | genSuccess (bm : GodotBeatmap)
  | genException
  | converterFailed
  | converterMissing
deriving DecidableEq

/-- The content of the file at `output_path` after
`generate_beatmap_with_beatlearning` returns. -/
inductive WrittenBeatmap
  | converted (bm : GodotBeatmap)
  | placeholder (bm : PlaceholderBeatmap)
deriving DecidableEq

/-- The fallback control flow of `generate_beatmap_with_beatlearning`:
every non-success outcome ends in `create_placeholder_beatmap` writing
the placeholder document to the output path. -/
def generateBeatmapResult (outcome : GenOutcome) (cfg : DemonConfig) : WrittenBeatmap :=
  match outcome with
  | .genSuccess bm => .converted bm
  | .genException => .placeholder (createPlaceholderBeatmap cfg)
  | .converterFailed => .placeholder (createPlaceholderBeatmap cfg)
  | .converterMissing => .placeholder (createPlaceholderBeatmap cfg)

/-! ## Sample inputs used by witnesses and counterexamples -/

/-- An input whose metadata omits every field. -/
def metaEmpty : InputMeta := ⟨none, none, none, none, none, none, none, none⟩

/-- A table with a two-row hold on `LEFT` released at time 700. -/
def dfHold : List Row := [⟨0, [("LEFT", 2)]⟩, ⟨300, [("LEFT", 2)]⟩, ⟨700, [("LEFT", 0)]⟩]

/-- A table whose hold on `LEFT` never ends. -/
def dfHoldOpen : List Row := [⟨0, [("LEFT", 2)]⟩, ⟨300, [("LEFT", 2)]⟩]

/-- Metadata whose track list differs from the default list at lane 0. -/
def metaFoo : InputMeta :=
  ⟨none, none, none, none, none, none, some ["FOO", "DOWN", "UP", "RIGHT"], none⟩

/-- A table for `metaFoo`: the hold lives in the `FOO` column, but a later
row carries a `LEFT` column (the default name for lane 0). -/
def dfFoo : List Row := [⟨0, [("FOO", 2)]⟩, ⟨500, [("LEFT", 0)]⟩]

/-- A demon whose capture duration is zero. -/
def demonZero : DemonConfig := ⟨"imp", "Imp", "easy", 0, 120, "medium", 0⟩

/-- A demon with an extreme BPM: beats are 0.4 ms apart. -/
def demonFast : DemonConfig := ⟨"wisp", "Wisp", "hard", 1/1000, 150000, "very_high", 0⟩

/-- An ordinary demon configuration. -/
def demonStd : DemonConfig := ⟨"golem", "Golem", "medium", 2, 120, "medium", 1⟩

/-- The procedural pattern as the spec's words describe it, for comparison
with `generatePattern`: density 2 + ⌊difficulty·3⌋; total beats
⌊duration·bpm/60⌋; a tap iff the sub-beat is 0 or (difficulty > 0.5 and
the sub-beat is even); lane (beat+sub-beat) mod lanes; time = beat start
plus sub-beat · (beat duration / density), rounded to the millisecond. -/
def specPattern (lanes : Nat) (difficulty bpm duration : Rat) : List HitObject :=
  let beatDuration : Rat := 60000 / bpm
  let density : Int := 2 + ⌊difficulty * 3⌋
  (List.range ⌊duration * bpm / 60⌋.toNat).flatMap fun (beat : Nat) =>
    (List.range density.toNat).filterMap fun (subBeat : Nat) =>
      if subBeat = 0 ∨ (1/2 < difficulty ∧ subBeat % 2 = 0) then
        some { time := ⌊(beat : Rat) * beatDuration + (subBeat : Rat) * (beatDuration / (density : Rat))⌋
               lane := (beat + subBeat) % lanes
               type := "tap"
               duration := 0 }
      else none

/-! ## Claim C6: the single timing point -/

/-- Claim C6: every converted beatmap contains exactly one timing point,
whose `beat_length` is 60000 divided by the effective BPM — the metadata
BPM when present, 120.0 otherwise. -/
theorem timing_point_unique (style : String) (lanes : Nat) (meta : InputMeta) (df : List Row) :
    (convertToGodot style lanes meta df).timing_points =
      [ { time := 0
          beat_length := 60000 / meta.bpm.getD 120
          meter := 4
          sample_set := "normal"
          sample_index := 0
          volume := 100
          uninherited := true
          effects := 0 } ] := rfl

/-! ## Claim C7: metadata defaults -/

/-- Claim C7: for every input whose metadata omits a field, the
corresponding output metadata field equals its documented default:
title "Unknown Song", artist "Unknown Artist", difficulty "Normal",
BPM 120.0, duration 0. -/
theorem metadata_defaults (style : String) (lanes : Nat) (meta : InputMeta) (df : List Row) :
    (meta.title = none → (convertToGodot style lanes meta df).metadata.title = "Unknown Song") ∧
    (meta.artist = none → (convertToGodot style lanes meta df).metadata.artist = "Unknown Artist") ∧
    (meta.difficulty = none → (convertToGodot style lanes meta df).metadata.difficulty = "Normal") ∧
    (meta.bpm = none → (convertToGodot style lanes meta df).metadata.bpm = 120) ∧
    (meta.duration = none → (convertToGodot style lanes meta df).metadata.duration = 0) := by
  refine ⟨fun h => ?_, fun h => ?_, fun h => ?_, fun h => ?_, fun h => ?_⟩ <;>
    simp [convertToGodot, h]

/-- Witness for C7 at the fully empty metadata. -/
theorem metadata_defaults_witness :
    (convertToGodot "guitar-hero" 4 metaEmpty []).metadata.title = "Unknown Song" ∧
    (convertToGodot "guitar-hero" 4 metaEmpty []).metadata.artist = "Unknown Artist" ∧
    (convertToGodot "guitar-hero" 4 metaEmpty []).metadata.difficulty = "Normal" ∧
    (convertToGodot "guitar-hero" 4 metaEmpty []).metadata.bpm = 120 ∧
    (convertToGodot "guitar-hero" 4 metaEmpty []).metadata.duration = 0 :=
  ⟨(metadata_defaults "guitar-hero" 4 metaEmpty []).1 rfl,
   (metadata_defaults "guitar-hero" 4 metaEmpty []).2.1 rfl,
   (metadata_defaults "guitar-hero" 4 metaEmpty []).2.2.1 rfl,
   (metadata_defaults "guitar-hero" 4 metaEmpty []).2.2.2.1 rfl,
   (metadata_defaults "guitar-hero" 4 metaEmpty []).2.2.2.2 rfl⟩

/-! ## Claim C4: lane-name resolution -/

/-- Counterexample to C4 as stated: for the unknown style `"unknown"` with
lane count 1, the resolved lane names are `["CENTER"]` (the guitar-hero
table's 1-lane entry), not the default 4-lane list truncated to 1. -/
theorem lane_resolution_counterexample :
    getDefaultTracks "unknown" 1 ≠ ["LEFT", "DOWN", "UP", "RIGHT"].take 1 := by
  decide

/-- Claim C4 as amended: known (style, lane-count) pairs go through the
fixed table (drums with 2 lanes gives KICK/SNARE); an unknown style falls
back to the whole guitar-hero table, so lane counts 4, 2 and 1 resolve to
that table's entries (`["CENTER"]` for 1), and only lane counts outside
the table resolve to the default 4-lane list truncated to the count. -/
theorem lane_resolution_amended (style : String) (lanes : Nat)
    (h1 : style ≠ "guitar-hero") (h2 : style ≠ "dance") (h3 : style ≠ "drums") :
    getDefaultTracks "drums" 2 = ["KICK", "SNARE"] ∧
    getDefaultTracks style lanes = getDefaultTracks "guitar-hero" lanes ∧
    (lanes ≠ 4 → lanes ≠ 2 → lanes ≠ 1 →
      getDefaultTracks style lanes = ["LEFT", "DOWN", "UP", "RIGHT"].take lanes) := by
  refine ⟨by decide, ?_, fun h4 h5 h6 => ?_⟩
  · simp [getDefaultTracks, laneMappings, h1, h2, h3]
  · simp [getDefaultTracks, laneMappings, h1, h2, h3, List.lookup,
      Nat.ne_of_beq_eq_false, beq_eq_false_iff_ne.mpr h4,
      beq_eq_false_iff_ne.mpr h5, beq_eq_false_iff_ne.mpr h6]

/-- Witness for the amended C4 at style "unknown" with 3 lanes. -/
theorem lane_resolution_witness :
    getDefaultTracks "unknown" 3 = ["LEFT", "DOWN", "UP", "RIGHT"].take 3 :=
  (lane_resolution_amended "unknown" 3 (by decide) (by decide) (by decide)).2.2
    (by decide) (by decide) (by decide)

/-! ## The hold-duration scan -/

/-- If every remaining row's column is absent or still 2, the scan falls
through to the 1000 ms default. -/
lemma holdScan_of_all_continue (name : String) (t0 : Int) (l : List Row)
    (h : ∀ r ∈ l, ∀ v, r.getCol name = some v → v = 2) :
    holdScan name t0 l = 1000 := by
  induction l with
  | nil => rfl
  | cons r rs ih =>
    have htl : ∀ r' ∈ rs, ∀ v, r'.getCol name = some v → v = 2 :=
      fun r' hr' => h r' (List.mem_cons_of_mem _ hr')
    cases hc : r.getCol name with
    | none => simpa [holdScan, hc] using ih htl
    | some v =>
      have hv : v = 2 := h r (List.mem_cons_self r rs) v hc
      simpa [holdScan, hc, hv] using ih htl

/-- On a time-sorted list, if some row at time `t1` breaks the hold and no
row strictly earlier than `t1` does, the scan stops exactly at `t1`. -/
lemma holdScan_first_break (name : String) (t0 t1 : Int) (l : List Row)
    (hsorted : l.Pairwise fun a b => a.time ≤ b.time)
    (hex : ∃ r ∈ l, r.time = t1 ∧ ∃ v, r.getCol name = some v ∧ v ≠ 2)
    (hbefore : ∀ r ∈ l, r.time < t1 → ∀ v, r.getCol name = some v → v = 2) :
    holdScan name t0 l = t1 - t0 := by
  induction l with
  | nil => exact absurd hex (by simp)
  | cons r rs ih =>
    obtain ⟨w, hw, hwt, v, hwc, hwv⟩ := hex
    cases hc : r.getCol name with
    | none =>
      have hwrs : w ∈ rs := by
        rcases List.mem_cons.mp hw with h | h
        · exact absurd hwc (by rw [h, hc]; simp)
        · exact h
      have hrec : holdScan name t0 rs = t1 - t0 :=
        ih hsorted.of_cons ⟨w, hwrs, hwt, v, hwc, hwv⟩
          fun r' hr' => hbefore r' (List.mem_cons_of_mem _ hr')
      simpa [holdScan, hc] using hrec
    | some u =>
      by_cases hu : u = 2
      · have hwrs : w ∈ rs := by
          rcases List.mem_cons.mp hw with h | h
          · subst h
            rw [hc] at hwc
            exact absurd (Option.some_injective _ hwc ▸ hu) hwv
          · exact h
        have hrec : holdScan name t0 rs = t1 - t0 :=
          ih hsorted.of_cons ⟨w, hwrs, hwt, v, hwc, hwv⟩
            fun r' hr' => hbefore r' (List.mem_cons_of_mem _ hr')
        simpa [holdScan, hc, hu] using hrec
      · have hge : t1 ≤ r.time := by
          by_contra hlt
          exact hu (hbefore r (List.mem_cons_self r rs) (lt_of_not_le hlt) u hc)
        have hle : r.time ≤ t1 := by
          rcases List.mem_cons.mp hw with h | h
          · exact le_of_eq (h ▸ hwt)
          · exact hwt ▸ (List.pairwise_cons.mp hsorted).1 w h
        have : r.time = t1 := le_antisymm hle hge
        simp [holdScan, hc, hu, this]

/-- Any hold object in the converter's output carries the duration the
look-ahead computed for its lane and start time. -/
lemma output_hold_duration (style : String) (lanes : Nat) (meta : InputMeta)
    (df : List Row) (h : HitObject)
    (hmem : h ∈ (convertToGodot style lanes meta df).hit_objects)
    (htype : h.type = "hold") :
    h.duration = calculateHoldDuration df style lanes h.lane h.time := by
  have hmem' : h ∈ emittedObjects df style lanes
      (meta.tracks.getD (getDefaultTracks style lanes)) := by
    have : h ∈ sortByTime (emittedObjects df style lanes
        (meta.tracks.getD (getDefaultTracks style lanes))) := hmem
    exact List.mem_mergeSort.mp this
  obtain ⟨r, _, hro⟩ := List.mem_flatMap.mp hmem'
  obtain ⟨p, _, hp⟩ := List.mem_filterMap.mp hro
  rcases hcv : r.getCol p.2 with _ | v
  · rw [hcv] at hp
    simp at hp
  simp only [hcv] at hp
  by_cases h1 : v = 1
  · rw [if_pos h1] at hp
    injection hp with hp
    subst hp
    simp at htype
  · rw [if_neg h1] at hp
    by_cases h2 : v = 2
    · rw [if_pos h2] at hp
      injection hp with hp
      subst hp
      rfl
    · rw [if_neg h2] at hp
      by_cases h3 : v = 3
      · rw [if_pos h3] at hp
        injection hp with hp
        subst hp
        simp at htype
      · rw [if_neg h3] at hp
        exact absurd hp (by simp)

/-! ## Claim C1: hold duration computation -/

/-- Claim C1: on a time-sorted input, a hold object emitted for a lane
whose column broke (value no longer 2) first at time `t1` has duration
`t1` minus its start time; a hold whose lane's column never breaks later
gets the fixed default duration of 1000 ms. -/
theorem hold_duration_forward_scan (style : String) (lanes : Nat) (meta : InputMeta)
    (df : List Row) (h : HitObject) (t1 : Int)
    (hsorted : df.Pairwise fun a b => a.time ≤ b.time)
    (hmem : h ∈ (convertToGodot style lanes meta df).hit_objects)
    (htype : h.type = "hold") :
    ((∃ r ∈ df, h.time < r.time ∧ r.time = t1 ∧
        ∃ v, r.getCol (laneTrackName style lanes h.lane) = some v ∧ v ≠ 2) →
      (∀ r ∈ df, h.time < r.time → r.time < t1 →
        ∀ v, r.getCol (laneTrackName style lanes h.lane) = some v → v = 2) →
      h.duration = t1 - h.time) ∧
    ((∀ r ∈ df, h.time < r.time →
        ∀ v, r.getCol (laneTrackName style lanes h.lane) = some v → v = 2) →
      h.duration = 1000) := by
  have hdur := output_hold_duration style lanes meta df h hmem htype
  rw [calculateHoldDuration] at hdur
  constructor
  · rintro ⟨r, hr, hrt, hrt1, v, hrc, hrv⟩ hmid
    rw [hdur]
    refine holdScan_first_break _ _ t1 _
      (List.Pairwise.sublist (List.filter_sublist df) hsorted)
      ⟨r, List.mem_filter.mpr ⟨hr, by simpa using hrt⟩, hrt1, v, hrc, hrv⟩
      fun r' hr' hlt => ?_
    have hm := List.mem_filter.mp hr'
    exact hmid r' hm.1 (by simpa using hm.2) hlt
  · intro hall
    rw [hdur]
    refine holdScan_of_all_continue _ _ _ fun r hr => ?_
    have hm := List.mem_filter.mp hr
    exact hall r hm.1 (by simpa using hm.2)

/-- Witness for C1: the two-row hold of `dfHold` gets duration 700, the
never-released hold of `dfHoldOpen` gets the 1000 ms default. -/
theorem hold_duration_forward_scan_witness :
    (⟨0, 0, "hold", 700⟩ : HitObject).duration = 700 - (⟨0, 0, "hold", 700⟩ : HitObject).time ∧
    (⟨0, 0, "hold", 1000⟩ : HitObject).duration = 1000 :=
  ⟨(hold_duration_forward_scan "guitar-hero" 4 metaEmpty dfHold ⟨0, 0, "hold", 700⟩ 700
      (by decide)
      (List.mem_mergeSort.mpr (by decide))
      rfl).1 (by decide) (by decide),
   (hold_duration_forward_scan "guitar-hero" 4 metaEmpty dfHoldOpen ⟨0, 0, "hold", 1000⟩ 0
      (by decide)
      (List.mem_mergeSort.mpr (by decide))
      rfl).2 (by decide)⟩

/-! ## The stable sort -/

lemma sortByTime_trans : ∀ a b c : HitObject,
    decide (a.time ≤ b.time) = true → decide (b.time ≤ c.time) = true →
    decide (a.time ≤ c.time) = true := by
  intro a b c hab hbc
  simp only [decide_eq_true_eq] at *
  exact le_trans hab hbc

lemma sortByTime_total : ∀ a b : HitObject,
    (decide (a.time ≤ b.time) || decide (b.time ≤ a.time)) = true := by
  intro a b
  simpa using le_total a.time b.time

/-- The sorted output is pairwise non-decreasing in time. -/
lemma sortByTime_sorted (l : List HitObject) :
    (sortByTime l).Pairwise fun a b => a.time ≤ b.time :=
  (List.sorted_mergeSort sortByTime_trans sortByTime_total l).imp
    fun hab => of_decide_eq_true hab

/-- Stability of the sort: the objects at any fixed time keep exactly
their pre-sort order. -/
lemma sortByTime_filter_time (l : List HitObject) (t : Int) :
    (sortByTime l).filter (fun h => decide (h.time = t)) =
      l.filter (fun h => decide (h.time = t)) := by
  have hpairwise : (l.filter fun h => decide (h.time = t)).Pairwise
      fun a b => decide (a.time ≤ b.time) = true := by
    refine List.pairwise_of_forall_mem_list fun a ha b hb => ?_
    have ha' : a.time = t := of_decide_eq_true (List.mem_filter.mp ha).2
    have hb' : b.time = t := of_decide_eq_true (List.mem_filter.mp hb).2
    simp only [decide_eq_true_eq]
    rw [ha', hb']
  have hsub : (l.filter fun h => decide (h.time = t)).Sublist (sortByTime l) :=
    List.sublist_mergeSort sortByTime_trans sortByTime_total hpairwise
      (List.filter_sublist l)
  have hsub2 : (l.filter fun h => decide (h.time = t)).Sublist
      ((sortByTime l).filter fun h => decide (h.time = t)) := by
    have hstep := List.Sublist.filter (fun h => decide (h.time = t)) hsub
    have heq : ((l.filter fun h => decide (h.time = t)).filter
        fun h => decide (h.time = t)) = l.filter fun h => decide (h.time = t) :=
      List.filter_eq_self.mpr fun a ha => (List.mem_filter.mp ha).2
    rwa [heq] at hstep
  have hperm : (((sortByTime l).filter fun h => decide (h.time = t))).Perm
      (l.filter fun h => decide (h.time = t)) :=
    (List.mergeSort_perm l _).filter _
  exact (hsub2.eq_of_length hperm.length_eq.symm).symm

/-! ## Claim C5: output ordering and stability -/

/-- Claim C5: for every input, the output `hit_objects` list is sorted
non-decreasingly by time, and the sort is stable: at each fixed time the
objects keep their relative emission order (row order then lane order),
i.e. filtering the output at any time gives exactly the same list as
filtering the emission-ordered list. -/
theorem hit_objects_sorted_stable (style : String) (lanes : Nat) (meta : InputMeta)
    (df : List Row) :
    ((convertToGodot style lanes meta df).hit_objects.Pairwise fun a b => a.time ≤ b.time) ∧
    ∀ t : Int,
      (convertToGodot style lanes meta df).hit_objects.filter (fun h => decide (h.time = t)) =
        (emittedObjects df style lanes (meta.tracks.getD (getDefaultTracks style lanes))).filter
          (fun h => decide (h.time = t)) :=
  ⟨sortByTime_sorted _, fun t => sortByTime_filter_time _ t⟩

/-! ## Counting emitted holds -/

/-- Counting by a predicate as a sum of per-element indicators. -/
lemma countP_eq_sum_ite {α : Type} (l : List α) (p : α → Prop) [DecidablePred p] :
    (l.countP fun a => decide (p a)) = (l.map fun a => if p a then 1 else 0).sum := by
  induction l with
  | nil => rfl
  | cons a tl ih =>
    by_cases h : p a
    · simp [List.countP_cons, h, ih]
      omega
    · simp [List.countP_cons, h, ih]

/-- Indices below the start of an `enumFrom` block never match. -/
lemma countP_enumFrom_fst_lt (q : String → Bool) (m n : Nat) (l : List String)
    (hmn : m < n) :
    ((List.enumFrom n l).countP fun p => decide (p.1 = m) && q p.2) = 0 := by
  induction l generalizing n with
  | nil => rfl
  | cons a tl ih =>
    have hne : (decide (n = m) && q a) = false := by
      have : ¬(n = m) := by omega
      simp [this]
    simp only [List.enumFrom_cons, List.countP_cons, hne, if_false]
    simpa using ih (n + 1) (by omega)

/-- Counting the entries of an enumeration whose index is `n + i` isolates
the single entry at offset `i`. -/
lemma countP_enumFrom_fst (q : String → Bool) (n i : Nat) (l : List String)
    (h : i < l.length) :
    ((List.enumFrom n l).countP fun p => decide (p.1 = n + i) && q p.2) =
      if q (l.get ⟨i, h⟩) then 1 else 0 := by
  induction l generalizing n i with
  | nil => exact absurd h (Nat.not_lt_zero i)
  | cons a tl ih =>
    cases i with
    | zero =>
      have h0 : ((List.enumFrom (n + 1) tl).countP
          fun p => decide (p.1 = n + 0) && q p.2) = 0 :=
        countP_enumFrom_fst_lt q (n + 0) (n + 1) tl (by omega)
      simp only [List.enumFrom_cons, List.countP_cons, h0, List.get]
      simp
    | succ j =>
      have hj : j < tl.length := by simpa using h
      have hne : (decide (n = n + (j + 1)) && q a) = false := by
        have : ¬(n = n + (j + 1)) := by omega
        simp [this]
      simp only [List.enumFrom_cons, List.countP_cons, hne, if_false, Nat.add_zero]
      have hidx : n + (j + 1) = (n + 1) + j := by omega
      simp only [hidx]
      simpa using ih (n + 1) j hj

/-- One row contributes to a lane's hold count exactly when the lane's
configured-track column holds value 2. -/
lemma countP_rowObjects_hold (df : List Row) (style : String) (lanes : Nat)
    (tracks : List String) (r : Row) (i : Nat) (h1 : i < lanes) (h2 : i < tracks.length) :
    ((rowObjects df style lanes tracks r).countP
        fun h => decide (h.lane = i) && decide (h.type = "hold")) =
      if r.getCol (tracks.get ⟨i, h2⟩) = some 2 then 1 else 0 := by
  rw [rowObjects, List.countP_filterMap]
  have hfun : (fun p : Nat × String =>
      (Option.map (fun h : HitObject => decide (h.lane = i) && decide (h.type = "hold"))
        (match r.getCol p.2 with
          | none => none
          | some v =>
            if v = 1 then some { time := r.time, lane := p.1, type := "tap", duration := 0 }
            else if v = 2 then
              some { time := r.time, lane := p.1, type := "hold",
                     duration := calculateHoldDuration df style lanes p.1 r.time }
            else if v = 3 then
              some { time := r.time, lane := p.1, type := "special", duration := 0 }
            else none)).getD false)
      = fun p : Nat × String => decide (p.1 = i) && decide (r.getCol p.2 = some 2) := by
    funext p
    rcases hcv : r.getCol p.2 with _ | v
    · simp [hcv]
    · by_cases hv1 : v = 1
      · simp [hcv, hv1]
      · by_cases hv2 : v = 2
        · simp [hcv, hv1, hv2]
        · by_cases hv3 : v = 3
          · simp [hcv, hv1, hv2, hv3]
          · simp [hcv, hv1, hv2, hv3]
  rw [hfun]
  have hlen : i < (tracks.take lanes).length := by
    simp only [List.length_take]
    omega
  have hcount := countP_enumFrom_fst (fun name => decide (r.getCol name = some 2))
    0 i (tracks.take lanes) hlen
  simp only [Nat.zero_add] at hcount
  have hget : (tracks.take lanes).get ⟨i, hlen⟩ = tracks.get ⟨i, h2⟩ := by
    simp [List.getElem_take]
  rw [List.enum, hcount, hget]
  simp

/-! ## Claim C8: every value-2 cell emits its own hold -/

/-- Claim C8: in the converter output, the number of hold objects on a
lane equals the number of rows whose column for that lane is 2 — value 2
is never a suppressed "hold-continue", so N consecutive 2-rows produce N
(overlapping) hold objects — and each such hold carries the duration the
forward scan computed at its own start time. -/
theorem every_hold_row_emits (style : String) (lanes : Nat) (meta : InputMeta)
    (df : List Row) (i : Nat) (h1 : i < lanes)
    (h2 : i < (meta.tracks.getD (getDefaultTracks style lanes)).length) :
    ((convertToGodot style lanes meta df).hit_objects.countP
        fun h => decide (h.lane = i) && decide (h.type = "hold")) =
      (df.countP fun r =>
        decide (r.getCol ((meta.tracks.getD (getDefaultTracks style lanes)).get ⟨i, h2⟩)
          = some 2)) ∧
    ∀ h ∈ (convertToGodot style lanes meta df).hit_objects, h.type = "hold" →
      h.duration = calculateHoldDuration df style lanes h.lane h.time := by
  constructor
  · have hperm : ((convertToGodot style lanes meta df).hit_objects).Perm
        (emittedObjects df style lanes (meta.tracks.getD (getDefaultTracks style lanes))) :=
      List.mergeSort_perm _ _
    rw [hperm.countP_eq, emittedObjects, List.countP_flatMap]
    have hmap : (List.map
        ((List.countP fun h => decide (h.lane = i) && decide (h.type = "hold")) ∘
          rowObjects df style lanes (meta.tracks.getD (getDefaultTracks style lanes))) df)
        = df.map fun r =>
            if r.getCol ((meta.tracks.getD (getDefaultTracks style lanes)).get ⟨i, h2⟩)
              = some 2 then 1 else 0 := by
      refine List.map_congr_left fun r _ => ?_
      exact countP_rowObjects_hold df style lanes _ r i h1 h2
    rw [hmap, ← countP_eq_sum_ite]
  · exact fun h hm ht => output_hold_duration style lanes meta df h hm ht

/-- Witness for C8: the two consecutive value-2 rows of `dfHold` yield
hold count 2 on lane 0. -/
theorem every_hold_row_emits_witness :
    ((convertToGodot "guitar-hero" 4 metaEmpty dfHold).hit_objects.countP
        fun h => decide (h.lane = 0) && decide (h.type = "hold")) =
      (dfHold.countP fun r =>
        decide (r.getCol ((metaEmpty.tracks.getD (getDefaultTracks "guitar-hero" 4)).get
          ⟨0, by decide⟩) = some 2)) ∧
    (dfHold.countP fun r =>
        decide (r.getCol ((metaEmpty.tracks.getD (getDefaultTracks "guitar-hero" 4)).get
          ⟨0, by decide⟩) = some 2)) = 2 :=
  ⟨(every_hold_row_emits "guitar-hero" 4 metaEmpty dfHold 0 (by decide) (by decide)).1,
   by decide⟩

/-! ## Claim C9: the look-ahead ignores metadata track names -/

/-- Counterexample to C9 as stated: with `metaFoo` (metadata tracks differ
from the default list at lane 0, `"FOO"` instead of `"LEFT"`), a later row
that happens to carry a `LEFT` column still ends the hold, so the emitted
hold gets duration 500, not the claimed universal 1000 ms default. -/
theorem hold_lookahead_counterexample :
    metaFoo.tracks.getD (getDefaultTracks "guitar-hero" 4) ≠ getDefaultTracks "guitar-hero" 4 ∧
    (⟨0, 0, "hold", 500⟩ : HitObject) ∈ (convertToGodot "guitar-hero" 4 metaFoo dfFoo).hit_objects ∧
    (⟨0, 0, "hold", 500⟩ : HitObject).duration ≠ 1000 :=
  ⟨by decide, List.mem_mergeSort.mpr (by decide), by decide⟩

/-- Claim C9 as amended: the look-ahead resolves the lane's column from
the default style-derived list (or `LANE_<i>` past its end), never from
the metadata-supplied tracks the row scan uses; consequently, whenever no
row carries a column under that default-resolved name — as when the rows
only carry the differing metadata track names — the look-ahead matches no
column and every hold in that lane gets the 1000 ms default duration. -/
theorem hold_lookahead_default_tracks (style : String) (lanes : Nat) (meta : InputMeta)
    (df : List Row) (i : Nat)
    (habsent : ∀ r ∈ df, r.getCol (laneTrackName style lanes i) = none) :
    (∀ t0 : Int, calculateHoldDuration df style lanes i t0 = 1000) ∧
    ∀ h ∈ (convertToGodot style lanes meta df).hit_objects,
      h.type = "hold" → h.lane = i → h.duration = 1000 := by
  have hall : ∀ t0 : Int, calculateHoldDuration df style lanes i t0 = 1000 := by
    intro t0
    refine holdScan_of_all_continue _ _ _ fun r hr v hv => ?_
    have : r.getCol (laneTrackName style lanes i) = none :=
      habsent r (List.mem_filter.mp hr).1
    rw [this] at hv
    exact absurd hv (by simp)
  refine ⟨hall, fun h hm ht hl => ?_⟩
  have := output_hold_duration style lanes meta df h hm ht
  rw [this, hl, hall]

/-- Witness for the amended C9: with `metaFoo`'s tracks but rows that only
carry the `FOO` column, the emitted hold gets the 1000 ms default. -/
theorem hold_lookahead_default_tracks_witness :
    (∀ t0 : Int, calculateHoldDuration [⟨0, [("FOO", 2)]⟩, ⟨500, [("FOO", 0)]⟩]
      "guitar-hero" 4 0 t0 = 1000) ∧
    ∀ h ∈ (convertToGodot "guitar-hero" 4 metaFoo
        [⟨0, [("FOO", 2)]⟩, ⟨500, [("FOO", 0)]⟩]).hit_objects,
      h.type = "hold" → h.lane = 0 → h.duration = 1000 :=
  hold_lookahead_default_tracks "guitar-hero" 4 metaFoo
    [⟨0, [("FOO", 2)]⟩, ⟨500, [("FOO", 0)]⟩] 0 (by decide)

/-! ## Claim C2: the demon pipeline's fallback -/

/-- Counterexample to C2 as stated: for a demon whose capture duration is
zero, the fallback still writes the placeholder document, but its `notes`
list is empty, so the output does not satisfy the claimed "non-empty
notes" part of the placeholder schema. -/
theorem fallback_placeholder_counterexample :
    generateBeatmapResult .genException demonZero =
      .placeholder (createPlaceholderBeatmap demonZero) ∧
    (createPlaceholderBeatmap demonZero).notes = [] ∧
    (createPlaceholderBeatmap demonZero).metadata.generated_by = "placeholder" := by
  refine ⟨rfl, ?_, rfl⟩
  show placeholderNotes demonZero = []
  have h0 : (pyInt (demonZero.capture_duration / (60 / demonZero.desired_bpm))).toNat = 0 := by
    norm_num [demonZero, pyInt]
  rw [placeholderNotes]
  simp only [h0, List.range_zero, List.filterMap_nil]

/-- Claim C2 as amended: whenever the generation path fails (exception,
converter non-zero exit, or missing converter script), the written output
is exactly the placeholder document, whose `metadata.generated_by` is
"placeholder"; its `notes` list is non-empty provided the entity's
configuration spans at least one beat (duration × BPM ≥ 60). -/
theorem fallback_writes_placeholder (outcome : GenOutcome) (cfg : DemonConfig)
    (hfail : ∀ bm, outcome ≠ GenOutcome.genSuccess bm) :
    generateBeatmapResult outcome cfg = .placeholder (createPlaceholderBeatmap cfg) ∧
    (createPlaceholderBeatmap cfg).metadata.generated_by = "placeholder" ∧
    (60 ≤ cfg.capture_duration * cfg.desired_bpm →
      (createPlaceholderBeatmap cfg).notes ≠ []) := by
  refine ⟨?_, rfl, fun hdur => ?_⟩
  · cases outcome with
    | genSuccess bm => exact absurd rfl (hfail bm)
    | genException => rfl
    | converterFailed => rfl
    | converterMissing => rfl
  · have hq : (1 : Rat) ≤ cfg.capture_duration / (60 / cfg.desired_bpm) := by
      rw [div_div_eq_mul_div]
      rw [le_div_iff₀ (by norm_num)]
      calc (1 : Rat) * 60 = 60 := by ring
        _ ≤ cfg.capture_duration * cfg.desired_bpm := hdur
    have hfloor : (1 : Int) ≤ ⌊cfg.capture_duration / (60 / cfg.desired_bpm)⌋ :=
      Int.le_floor.mpr (by exact_mod_cast hq)
    have hpos : 1 ≤ (pyInt (cfg.capture_duration / (60 / cfg.desired_bpm))).toNat := by
      rw [pyInt, if_pos (le_trans zero_le_one hq)]
      omega
    intro hnil
    have hmem0 : (0 : Nat) ∈ List.range
        (pyInt (cfg.capture_duration / (60 / cfg.desired_bpm))).toNat :=
      List.mem_range.mpr (by omega)
    have := (List.filterMap_eq_nil_iff.mp hnil) 0 hmem0
    simp at this

/-- Witness for the amended C2: a converter failure for `demonStd`
(2 seconds at 120 BPM) ends in a placeholder document with notes. -/
theorem fallback_writes_placeholder_witness :
    generateBeatmapResult .converterFailed demonStd =
      .placeholder (createPlaceholderBeatmap demonStd) ∧
    (createPlaceholderBeatmap demonStd).metadata.generated_by = "placeholder" ∧
    (60 ≤ demonStd.capture_duration * demonStd.desired_bpm →
      (createPlaceholderBeatmap demonStd).notes ≠ []) :=
  fallback_writes_placeholder .converterFailed demonStd (fun bm h => by cases h)

/-! ## Claim C3: the procedural pattern generator -/

lemma pyInt_of_nonneg {q : Rat} (h : 0 ≤ q) : pyInt q = ⌊q⌋ := if_pos h

/-- Claim C3: for every BPM > 0, difficulty in [0,1], lane count and
nonnegative duration, the procedural generator emits exactly the notes the
spec formula describes (density 2+⌊difficulty·3⌋, beats ⌊duration·bpm/60⌋,
emission rule, lane and time formulas), and the density is in [2,5]. -/
theorem generate_pattern_matches_spec (lanes : Nat) (difficulty bpm duration : Rat)
    (hd0 : 0 ≤ difficulty) (hd1 : difficulty ≤ 1) (hb : 0 < bpm) (hdur : 0 ≤ duration) :
    generatePattern lanes difficulty bpm duration = specPattern lanes difficulty bpm duration ∧
    2 ≤ 2 + pyInt (difficulty * 3) ∧ 2 + pyInt (difficulty * 3) ≤ 5 := by
  have hfl0 : (0 : Int) ≤ ⌊difficulty * 3⌋ := Int.floor_nonneg.mpr (by positivity)
  have hfl3 : ⌊difficulty * 3⌋ ≤ 3 := by
    have h3 : difficulty * 3 ≤ 3 := by nlinarith
    calc ⌊difficulty * 3⌋ ≤ ⌊(3 : Rat)⌋ := Int.floor_le_floor h3
      _ = 3 := by norm_num
  have hpy3 : pyInt (difficulty * 3) = ⌊difficulty * 3⌋ := pyInt_of_nonneg (by positivity)
  refine ⟨?_, by rw [hpy3]; omega, by rw [hpy3]; omega⟩
  have hbd : (0 : Rat) ≤ 60000 / bpm := le_of_lt (by positivity)
  have hdens : (0 : Rat) < ((2 + ⌊difficulty * 3⌋ : Int) : Rat) := by
    exact_mod_cast (by omega : (0 : Int) < 2 + ⌊difficulty * 3⌋)
  rw [generatePattern, specPattern]
  simp only [hpy3, pyInt_of_nonneg (show (0 : Rat) ≤ duration * bpm / 60 by positivity)]
  refine congrArg _ (funext fun beat => ?_)
  refine congrArg (fun f => List.filterMap f (List.range (2 + ⌊difficulty * 3⌋).toNat))
    (funext fun subBeat => ?_)
  by_cases hcond : subBeat = 0 ∨ 1/2 < difficulty ∧ subBeat % 2 = 0
  · rw [if_pos hcond, if_pos hcond]
    have htime : pyInt ((beat : Rat) * (60000 / bpm) +
        (subBeat : Rat) * (60000 / bpm) / ((2 + ⌊difficulty * 3⌋ : Int) : Rat)) =
        ⌊(beat : Rat) * (60000 / bpm) +
          (subBeat : Rat) * ((60000 / bpm) / ((2 + ⌊difficulty * 3⌋ : Int) : Rat))⌋ := by
      rw [mul_div_assoc]
      exact pyInt_of_nonneg (add_nonneg
        (mul_nonneg (by positivity) hbd)
        (mul_nonneg (by positivity) (div_nonneg hbd (le_of_lt hdens))))
    rw [htime]
  · rw [if_neg hcond, if_neg hcond]

/-- Witness for C3 at difficulty 0.6, 120 BPM, 1 second, 4 lanes. -/
theorem generate_pattern_matches_spec_witness :
    generatePattern 4 (3/5) 120 1 = specPattern 4 (3/5) 120 1 ∧
    2 ≤ 2 + pyInt ((3/5) * 3) ∧ 2 + pyInt ((3/5) * 3) ≤ 5 :=
  generate_pattern_matches_spec 4 (3/5) 120 1 (by norm_num) (by norm_num)
    (by norm_num) (by norm_num)

/-! ## Properties of round-half-to-even -/

lemma roundHalfEven_intCast (n : Int) : roundHalfEven (n : Rat) = n := by
  rw [roundHalfEven, Int.floor_intCast, if_neg (by norm_num)]
  exact round_intCast n

lemma floor_le_roundHalfEven (q : Rat) : ⌊q⌋ ≤ roundHalfEven q := by
  rw [roundHalfEven]
  split
  · split
    · exact le_refl _
    · omega
  · rw [round_eq]
    exact Int.floor_le_floor (by linarith)

lemma roundHalfEven_le_floor_add_one (q : Rat) : roundHalfEven q ≤ ⌊q⌋ + 1 := by
  rw [roundHalfEven]
  split
  · split <;> omega
  · rw [round_eq]
    have hlt : q + 1/2 < (⌊q⌋ + 2 : Int) := by
      have := Int.lt_floor_add_one q
      push_cast
      linarith
    have := Int.floor_lt.mpr hlt
    omega

lemma roundHalfEven_le (q : Rat) : (roundHalfEven q : Rat) ≤ q + 1/2 := by
  rw [roundHalfEven]
  split
  · rename_i h
    split
    · have := Int.floor_le q
      linarith
    · push_cast
      linarith
  · rw [round_eq]
    calc ((⌊q + 1/2⌋ : Int) : Rat) ≤ q + 1/2 := Int.floor_le _

lemma le_roundHalfEven (q : Rat) : q - 1/2 ≤ (roundHalfEven q : Rat) := by
  rw [roundHalfEven]
  split
  · rename_i h
    split
    · linarith
    · push_cast
      linarith
  · rw [round_eq]
    have := Int.sub_one_lt_floor (q + 1/2)
    linarith

lemma roundHalfEven_mono {x y : Rat} (hxy : x ≤ y) :
    roundHalfEven x ≤ roundHalfEven y := by
  rcases lt_or_eq_of_le (Int.floor_le_floor hxy) with hf | hf
  · calc roundHalfEven x ≤ ⌊x⌋ + 1 := roundHalfEven_le_floor_add_one x
      _ ≤ ⌊y⌋ := by omega
      _ ≤ roundHalfEven y := floor_le_roundHalfEven y
  · by_cases hx : x - ⌊x⌋ = 1/2 <;> by_cases hy : y - ⌊y⌋ = 1/2
    · have hxy' : x = y := by
        have hcast : ((⌊x⌋ : Int) : Rat) = ((⌊y⌋ : Int) : Rat) := by exact_mod_cast hf
        linarith
      rw [hxy']
    · -- x is a tie, y is strictly above its own tie point
      have hcast : ((⌊x⌋ : Int) : Rat) = ((⌊y⌋ : Int) : Rat) := by exact_mod_cast hf
      have hyge : (⌊y⌋ : Rat) + 1/2 ≤ y := by linarith
      have hygt : (⌊y⌋ : Rat) + 1/2 < y :=
        lt_of_le_of_ne hyge fun heq => hy (by linarith)
      have hfy : ⌊y⌋ + 1 ≤ ⌊y + 1/2⌋ := Int.le_floor.mpr (by push_cast; linarith)
      rw [roundHalfEven, if_pos hx, roundHalfEven, if_neg hy, round_eq]
      split <;> omega
    · -- y is a tie, x is strictly below it
      have hcast : ((⌊x⌋ : Int) : Rat) = ((⌊y⌋ : Int) : Rat) := by exact_mod_cast hf
      have hxle : x ≤ (⌊x⌋ : Rat) + 1/2 := by linarith
      have hxlt : x < (⌊x⌋ : Rat) + 1/2 :=
        lt_of_le_of_ne hxle fun heq => hx (by linarith)
      have hfx : ⌊x + 1/2⌋ < ⌊x⌋ + 1 := Int.floor_lt.mpr (by push_cast; linarith)
      rw [roundHalfEven, if_neg hx, roundHalfEven, if_pos hy, round_eq]
      split <;> omega
    · rw [roundHalfEven, if_neg hx, roundHalfEven, if_neg hy, round_eq, round_eq]
      exact Int.floor_le_floor (by linarith)

lemma roundHalfEven_lt {x y : Rat} (h : x + 1 < y) :
    roundHalfEven x < roundHalfEven y := by
  have h1 := roundHalfEven_le x
  have h2 := le_roundHalfEven y
  exact_mod_cast (by linarith : (roundHalfEven x : Rat) < roundHalfEven y)

/-! ## Claim C10: placeholder note invariants -/

lemma filterMap_guard_eq_filter_map {α β : Type} (p : α → Prop) [DecidablePred p]
    (f : α → β) (l : List α) :
    (l.filterMap fun a => if p a then some (f a) else none) =
      (l.filter fun a => decide (p a)).map f := by
  induction l with
  | nil => rfl
  | cons a tl ih =>
    by_cases h : p a <;> simp [h, ih]

/-- Counterexample to C10 as stated: for `demonFast` (60/bpm is 0.4 ms),
beats 0 and 1 both emit, and both times round to 0.000, so the notes list
is not strictly increasing in time. -/
theorem placeholder_note_counterexample :
    ¬ ((createPlaceholderBeatmap demonFast).notes.Pairwise fun a b => a.time < b.time) := by
  have h1 : (pyInt ((5 : Rat)/2)).toNat = 2 := by
    norm_num [pyInt]
    decide
  have h2 : (max 1 (pyInt (1 : Rat))).toNat = 1 := by
    norm_num [pyInt]
  have h3 : round3 (0 : Rat) = 0 := by
    norm_num [round3, roundHalfEven]
  have h4 : round3 ((1 : Rat)/2500) = 0 := by
    norm_num [round3, roundHalfEven]
  have hd : noteDensityValue "very_high" = 2 := by decide
  have hn : placeholderNotes demonFast = [⟨0, 0, "tap"⟩, ⟨0, 1, "tap"⟩] := by
    rw [placeholderNotes]
    norm_num [demonFast, hd, h1, h2, h3, h4, List.range_succ, List.filterMap_cons]
  intro hpair
  rw [show (createPlaceholderBeatmap demonFast).notes = placeholderNotes demonFast from rfl,
    hn] at hpair
  have hlt := (List.pairwise_cons.mp hpair).1 ⟨0, 1, "tap"⟩ (by simp)
  exact absurd hlt (by simp)

/-- Claim C10 as amended: every note of the placeholder generator has
time `round(beat · 60/bpm, 3)` in (fractional) seconds and lane
`beat % 4` regardless of lane configuration, at most one note per beat
(the notes are the image of a strictly increasing beat list), the output's
`lanes` field is always 4, and the notes list is non-decreasing in time —
strictly increasing whenever bpm ≤ 60000 (i.e. a beat lasts at least one
millisecond; at extreme BPM distinct beats can round to the same time). -/
theorem placeholder_note_invariants (cfg : DemonConfig) (hbpm : 0 < cfg.desired_bpm) :
    (createPlaceholderBeatmap cfg).lanes = 4 ∧
    (∃ bs : List Nat, bs.Pairwise (fun a b => a < b) ∧
      (createPlaceholderBeatmap cfg).notes = bs.map fun b =>
        { time := round3 ((b : Rat) * (60 / cfg.desired_bpm))
          lane := b % 4
          type := if 0 < cfg.special_note_frequency ∧ b % 8 = 0 then "special" else "tap" }) ∧
    ((createPlaceholderBeatmap cfg).notes.Pairwise fun a b => a.time ≤ b.time) ∧
    (cfg.desired_bpm ≤ 60000 →
      (createPlaceholderBeatmap cfg).notes.Pairwise fun a b => a.time < b.time) := by
  have hspb : (0 : Rat) < 60 / cfg.desired_bpm := by positivity
  have hnotes : (createPlaceholderBeatmap cfg).notes =
      (((List.range ((pyInt (cfg.capture_duration / (60 / cfg.desired_bpm))).toNat)).filter
          fun b => decide (b % (max 1 (pyInt (2 / noteDensityValue cfg.note_density))).toNat = 0)).map
        fun b : Nat =>
          ({ time := round3 ((b : Rat) * (60 / cfg.desired_bpm))
             lane := b % 4
             type := if 0 < cfg.special_note_frequency ∧ b % 8 = 0 then "special" else "tap" }
            : PNote)) := by
    show placeholderNotes cfg = _
    rw [placeholderNotes]
    exact filterMap_guard_eq_filter_map _ _ _
  have hbs : (((List.range ((pyInt (cfg.capture_duration / (60 / cfg.desired_bpm))).toNat)).filter
      fun b => decide (b % (max 1 (pyInt (2 / noteDensityValue cfg.note_density))).toNat = 0)).Pairwise
        fun a b => a < b) :=
    List.Pairwise.sublist (List.filter_sublist _) (List.pairwise_lt_range _)
  have hmono : ∀ b1 b2 : Nat, b1 < b2 →
      round3 ((b1 : Rat) * (60 / cfg.desired_bpm)) ≤ round3 ((b2 : Rat) * (60 / cfg.desired_bpm)) := by
    intro b1 b2 hb
    rw [round3, round3]
    have harg : (b1 : Rat) * (60 / cfg.desired_bpm) * 1000 ≤
        (b2 : Rat) * (60 / cfg.desired_bpm) * 1000 := by
      have hcast : (b1 : Rat) ≤ (b2 : Rat) := by exact_mod_cast hb.le
      nlinarith
    have := roundHalfEven_mono harg
    have hc : ((roundHalfEven ((b1 : Rat) * (60 / cfg.desired_bpm) * 1000)) : Rat) ≤
        ((roundHalfEven ((b2 : Rat) * (60 / cfg.desired_bpm) * 1000)) : Rat) := by
      exact_mod_cast this
    linarith
  have hstrict : cfg.desired_bpm ≤ 60000 → ∀ b1 b2 : Nat, b1 < b2 →
      round3 ((b1 : Rat) * (60 / cfg.desired_bpm)) < round3 ((b2 : Rat) * (60 / cfg.desired_bpm)) := by
    intro hle b1 b2 hb
    have hs1 : (1 : Rat) ≤ (60 / cfg.desired_bpm) * 1000 := by
      rw [div_mul_eq_mul_div, le_div_iff₀ hbpm]
      linarith
    have hkey : roundHalfEven ((b1 : Rat) * (60 / cfg.desired_bpm) * 1000) <
        roundHalfEven ((b2 : Rat) * (60 / cfg.desired_bpm) * 1000) := by
      rcases Nat.lt_or_ge b2 (b1 + 2) with hb2 | hb2
      · -- b2 = b1 + 1
        have hb21 : b2 = b1 + 1 := by omega
        rcases eq_or_lt_of_le hs1 with hseq | hsgt
        · -- a beat is exactly one millisecond: both arguments are integers
          have hx : (b1 : Rat) * (60 / cfg.desired_bpm) * 1000 = ((b1 : Int) : Rat) := by
            push_cast
            nlinarith [hseq]
          have hy : (b2 : Rat) * (60 / cfg.desired_bpm) * 1000 = ((b2 : Int) : Rat) := by
            push_cast
            nlinarith [hseq]
          rw [hx, hy, roundHalfEven_intCast, roundHalfEven_intCast]
          exact_mod_cast hb
        · refine roundHalfEven_lt ?_
          have hcast : (b2 : Rat) = (b1 : Rat) + 1 := by
            rw [hb21]
            push_cast
            ring
          nlinarith
      · -- b2 ≥ b1 + 2
        refine roundHalfEven_lt ?_
        have hcast : (b1 : Rat) + 2 ≤ (b2 : Rat) := by exact_mod_cast hb2
        nlinarith
    rw [round3, round3]
    have hc : ((roundHalfEven ((b1 : Rat) * (60 / cfg.desired_bpm) * 1000)) : Rat) <
        ((roundHalfEven ((b2 : Rat) * (60 / cfg.desired_bpm) * 1000)) : Rat) := by
      exact_mod_cast hkey
    linarith
  refine ⟨rfl, ⟨_, hbs, hnotes⟩, ?_, fun hle => ?_⟩
  · rw [hnotes, List.pairwise_map]
    exact hbs.imp fun hab => hmono _ _ hab
  · rw [hnotes, List.pairwise_map]
    exact hbs.imp fun hab => hstrict hle _ _ hab

/-- Witness for the amended C10 at the ordinary `demonStd`. -/
theorem placeholder_note_invariants_witness :
    ((createPlaceholderBeatmap demonStd).notes.Pairwise fun a b => a.time ≤ b.time) :=
  (placeholder_note_invariants demonStd (by norm_num [demonStd])).2.2.1

end BeatLearning
